import Mathlib

/-!
Shallow embedding of `src/server.py` (puff-archive-backend).

The server keeps one Mongo collection of cheat documents and one upload
directory.  We model a BSON value as `BVal` (only strings and null ever
occur in this program), a document as an association list from field name
to value, the collection as a `List Doc`, and the upload directory as a
list of (filename, bytes) pairs.  Each endpoint becomes a pure function;
an endpoint that can raise `HTTPException` returns `Except HTTPErr _`
paired with the state left behind (FastAPI dependencies run before the
handler body, so an unauthorized rejection happens before any mutation).
Calls to `uuid.uuid4()` and `datetime.now()` are passed in as explicit
string arguments.
-/

/-- A BSON value as it occurs in this program: a string or null. -/
inductive BVal where
  | null : BVal
  | str : String → BVal
deriving DecidableEq, Repr

/-- A stored document: association list from field name to value. -/
abbrev Doc := List (String × BVal)

/-- `HTTPException(status_code, detail)` from `server.py`. -/
structure HTTPErr where
  status : Nat
  detail : String
deriving DecidableEq, Repr

/-- `ADMIN_CODE = "201016"` (server.py line 48). -/
def ADMIN_CODE : String := "201016"

/-- The 401 raised by `get_current_user` and `authenticate`. -/
def unauthorizedErr : HTTPErr := ⟨401, "Invalid authentication code"⟩

/-- The 404 raised by `delete_cheat`. -/
def notFoundErr : HTTPErr := ⟨404, "Cheat not found"⟩

/-- The 400 raised by `upload_thumbnail` for a non-image declared type. -/
def invalidFileErr : HTTPErr := ⟨400, "File must be an image"⟩

/-- `verify_admin_code` (server.py lines 75-76). -/
def verify_admin_code (code : String) : Bool :=
  code == ADMIN_CODE

/-- `AuthResponse` model (server.py lines 70-72). -/
structure AuthResponse where
  success : Bool
  token : String
deriving DecidableEq, Repr

/-- `authenticate`, POST /api/auth (server.py lines 88-93). -/
def authenticate (auth_code : String) : Except HTTPErr AuthResponse :=
  if verify_admin_code auth_code then
    .ok ⟨true, ADMIN_CODE⟩
  else
    .error unauthorizedErr

/-- `get_current_user` (server.py lines 78-81): the bearer-credential
check run (as a dependency, before the handler body) on every write
endpoint. -/
def get_current_user (credentials : String) : Except HTTPErr Bool :=
  if credentials != ADMIN_CODE then
    .error unauthorizedErr
  else
    .ok true

/-- `CheatCreate` request model (server.py lines 51-56). -/
structure CheatCreate where
  name : String
  description : String
  link : String
  youtube_url : Option String
  thumbnail_url : Option String
deriving DecidableEq, Repr

/-- `CheatResponse` model (server.py lines 58-65). -/
structure CheatResponse where
  id : String
  name : String
  description : String
  link : String
  youtube_url : Option String
  thumbnail_url : Option String
  created_at : String
deriving DecidableEq, Repr

/-- An optional Python string as stored into Mongo: `None` becomes BSON
null, a string stays a string. -/
def optVal : Option String → BVal
  | none => .null
  | some s => .str s

/-- The `cheat_data` dict built by `create_cheat` (server.py lines
114-122): all seven fields, the optional ones stored explicitly (null
when absent from the request). -/
def mkCheatDoc (cheat : CheatCreate) (cheat_id now : String) : Doc :=
  [ ("id", .str cheat_id),
    ("name", .str cheat.name),
    ("description", .str cheat.description),
    ("link", .str cheat.link),
    ("youtube_url", optVal cheat.youtube_url),
    ("thumbnail_url", optVal cheat.thumbnail_url),
    ("created_at", .str now) ]

/-- The `CheatResponse(**cheat_data)` built by `create_cheat`
(server.py line 126): same data as the stored document. -/
def mkResp (cheat : CheatCreate) (cheat_id now : String) : CheatResponse :=
  { id := cheat_id, name := cheat.name, description := cheat.description,
    link := cheat.link, youtube_url := cheat.youtube_url,
    thumbnail_url := cheat.thumbnail_url, created_at := now }

/-- `create_cheat`, POST /api/cheats (server.py lines 111-126).  Takes
the generated uuid and timestamp as arguments; returns the HTTP outcome
and the collection left behind. -/
def create_cheat (cred : String) (cheat : CheatCreate) (cheat_id now : String)
    (store : List Doc) : Except HTTPErr CheatResponse × List Doc :=
  match get_current_user cred with
  | .error e => (.error e, store)
  | .ok _ =>
      let cheat_data := mkCheatDoc cheat cheat_id now
      (.ok (mkResp cheat cheat_id now), store ++ [cheat_data])

/-- Python `cheat["k"]` followed by pydantic validation against a `str`
field: KeyError when the key is absent, a validation error when the
value is null. -/
def reqStr (d : Doc) (k : String) : Except String String :=
  match List.lookup k d with
  | some (.str s) => .ok s
  | some .null => .error ("validation error: " ++ k ++ " is null")
  | none => .error ("KeyError: " ++ k)

/-- Python `cheat.get("k")`: `None` both when the key is absent and when
its value is null. -/
def pyGet (d : Doc) (k : String) : Option String :=
  match List.lookup k d with
  | some (.str s) => some s
  | _ => none

/-- One iteration of the list comprehension in `get_cheats` (server.py
lines 98-109): build a `CheatResponse` from a stored document. -/
def docToResponse (d : Doc) : Except String CheatResponse := do
  let i ← reqStr d "id"
  let n ← reqStr d "name"
  let de ← reqStr d "description"
  let l ← reqStr d "link"
  let ca ← reqStr d "created_at"
  pure { id := i, name := n, description := de, link := l,
         youtube_url := pyGet d "youtube_url",
         thumbnail_url := pyGet d "thumbnail_url", created_at := ca }

/-- `get_cheats`, GET /api/cheats (server.py lines 95-109): the list
comprehension over `cheats_collection.find()`; the first bad document
aborts the request with a server error. -/
def get_cheats (store : List Doc) : Except String (List CheatResponse) :=
  match store with
  | [] => .ok []
  | d :: rest => do
      let r ← docToResponse d
      let rs ← get_cheats rest
      pure (r :: rs)

/-- Does this document match the Mongo filter `{"id": cheat_id}`? -/
def matchesId (d : Doc) (cheat_id : String) : Bool :=
  List.lookup "id" d == some (.str cheat_id)

/-- `cheats_collection.delete_one({"id": cheat_id})`: removes the first
matching document; returns `deleted_count` and the collection left
behind. -/
def delete_one (store : List Doc) (cheat_id : String) : Nat × List Doc :=
  match store with
  | [] => (0, [])
  | d :: rest =>
      if matchesId d cheat_id then (1, rest)
      else
        let r := delete_one rest cheat_id
        (r.1, d :: r.2)

/-- `delete_cheat`, DELETE /api/cheats/{cheat_id} (server.py lines
128-133). -/
def delete_cheat (cred : String) (cheat_id : String) (store : List Doc) :
    Except HTTPErr String × List Doc :=
  match get_current_user cred with
  | .error e => (.error e, store)
  | .ok _ =>
      let result := delete_one store cheat_id
      if result.1 == 0 then (.error notFoundErr, result.2)
      else (.ok "Cheat deleted successfully", result.2)

/-- An uploaded multipart file: client-supplied filename, declared media
type, and the byte stream. -/
structure UploadFile where
  filename : String
  content_type : String
  content : List Nat
deriving DecidableEq, Repr

/-- Python `str.startswith`: a character-level prefix test, used on the
declared media type (server.py line 137). -/
def startswith (s p : String) : Bool :=
  p.data.isPrefixOf s.data

/-- Python `str.split` with a one-character separator, at character
level: `"a.png".split(".") = ["a", "png"]`, `"".split(".") = [""]`. -/
def pysplit (sep : Char) (cs : List Char) : List (List Char) :=
  match cs with
  | [] => [[]]
  | c :: rest =>
      match pysplit sep rest with
      | [] => [[c]]
      | g :: gs => if c = sep then [] :: g :: gs else (c :: g) :: gs

/-- `file.filename.split(".")[-1]` (server.py line 141): the characters
after the last dot, or the whole name when it has no dot. -/
def file_ext (filename : String) : String :=
  String.mk (((pysplit '.' filename.data).getLast?).getD [])

/-- `upload_thumbnail`, POST /api/upload (server.py lines 135-151).
Takes the generated uuid as an argument; the upload directory is a list
of (filename, bytes) pairs. -/
def upload_thumbnail (cred : String) (file : UploadFile) (gen_id : String)
    (uploads : List (String × List Nat)) :
    Except HTTPErr String × List (String × List Nat) :=
  match get_current_user cred with
  | .error e => (.error e, uploads)
  | .ok _ =>
      if !(startswith file.content_type "image/") then
        (.error invalidFileErr, uploads)
      else
        let unique_filename := gen_id ++ "." ++ file_ext file.filename
        (.ok ("/api/uploads/" ++ unique_filename),
         uploads ++ [(unique_filename, file.content)])

/-- Does some document in the collection match `{"id": cheat_id}`? -/
def hasId (store : List Doc) (cheat_id : String) : Bool :=
  store.any (fun d => matchesId d cheat_id)

/-- The string ids present in the collection. -/
def idsOf (store : List Doc) : List String :=
  store.filterMap (fun (d : Doc) =>
    match List.lookup "id" d with
    | some (BVal.str s) => some s
    | _ => none)

/-- The identifiers assigned by a batch of create requests (one
`(body, uuid, timestamp)` triple per request; any interleaving of
concurrent creates is some such sequence, each create being a single
`insert_one`). -/
def foldCreates (reqs : List (CheatCreate × String × String)) (store : List Doc) :
    List Doc :=
  match reqs with
  | [] => store
  | (c, gid, now) :: rest => foldCreates rest (create_cheat ADMIN_CODE c gid now store).2

/-- The global server state: the Mongo collection and the upload
directory. -/
structure ServerState where
  store : List Doc
  uploads : List (String × List Nat)

/-- One incoming HTTP request, with the non-deterministic inputs
(uuid, clock) made explicit. -/
inductive Op where
  | health : Op
  | auth (code : String) : Op
  | list : Op
  | create (cred : String) (c : CheatCreate) (gid now : String) : Op
  | delete (cred : String) (cid : String) : Op
  | upload (cred : String) (f : UploadFile) (gid : String) : Op

/-- The state left behind by one request (errors leave what the handler
had already written; only the handlers below ever write). -/
def step (op : Op) (s : ServerState) : ServerState :=
  match op with
  | .health => s
  | .auth _ => s
  | .list => s
  | .create cred c gid now => { s with store := (create_cheat cred c gid now s.store).2 }
  | .delete cred cid => { s with store := (delete_cheat cred cid s.store).2 }
  | .upload cred f gid => { s with uploads := (upload_thumbnail cred f gid s.uploads).2 }

theorem exBind_ok {ε α β : Type} (a : α) (f : α → Except ε β) :
    (Except.ok a >>= f) = f a := rfl

theorem exBind_error {ε α β : Type} (e : ε) (f : α → Except ε β) :
    ((Except.error e : Except ε α) >>= f) = Except.error e := rfl

theorem docToResponse_mkCheatDoc (c : CheatCreate) (gid now : String) :
    docToResponse (mkCheatDoc c gid now) = .ok (mkResp c gid now) := by
  cases c with
  | mk n d l y th => cases y <;> cases th <;> rfl

theorem create_cheat_admin (c : CheatCreate) (gid now : String) (store : List Doc) :
    create_cheat ADMIN_CODE c gid now store =
      (.ok (mkResp c gid now), store ++ [mkCheatDoc c gid now]) := rfl

theorem get_cheats_append (l1 l2 : List Doc) (r1 r2 : List CheatResponse)
    (h1 : get_cheats l1 = .ok r1) (h2 : get_cheats l2 = .ok r2) :
    get_cheats (l1 ++ l2) = .ok (r1 ++ r2) := by
  induction l1 generalizing r1 with
  | nil =>
      simp [get_cheats] at h1
      simpa [h1] using h2
  | cons d rest ih =>
      cases hd : docToResponse d with
      | error e => simp [get_cheats, hd, exBind_error] at h1
      | ok a =>
          cases hrest : get_cheats rest with
          | error e => simp [get_cheats, hd, hrest, exBind_ok, exBind_error] at h1
          | ok rs =>
              simp [get_cheats, hd, hrest, exBind_ok] at h1
              subst h1
              simp [get_cheats, hd, exBind_ok, ih rs hrest]

theorem matchesId_iff (d : Doc) (cid : String) :
    matchesId d cid = true ↔ List.lookup "id" d = some (.str cid) := by
  simp [matchesId]

theorem idsOf_cons (e : Doc) (rest : List Doc) :
    idsOf (e :: rest) =
      (match List.lookup "id" e with
       | some (BVal.str s) => [s]
       | _ => []) ++ idsOf rest := by
  cases hl : List.lookup "id" e with
  | none => simp [idsOf, List.filterMap_cons, hl]
  | some v => cases v <;> simp [idsOf, List.filterMap_cons, hl]

theorem hasId_mem_idsOf (store : List Doc) (cid : String)
    (h : hasId store cid = true) : cid ∈ idsOf store := by
  induction store with
  | nil => simp [hasId] at h
  | cons e rest ih =>
      rw [idsOf_cons]
      simp [hasId, List.any_cons] at h
      rcases h with he | hrest
      · rw [(matchesId_iff e cid).mp he]
        simp
      · have := ih (by simp [hasId]; exact hrest)
        cases List.lookup "id" e with
        | none => simpa using this
        | some v => cases v <;> simp [this]

theorem delete_one_not_found (store : List Doc) (cid : String)
    (h : hasId store cid = false) : delete_one store cid = (0, store) := by
  induction store with
  | nil => rfl
  | cons d rest ih =>
      simp [hasId, List.any_cons] at h
      have h2 : hasId rest cid = false := by
        simp [hasId]
        exact h.2
      simp [delete_one, h.1, ih h2]

theorem filter_eq_self_of_no_match (store : List Doc) (cid : String)
    (h : hasId store cid = false) :
    store.filter (fun d => ! matchesId d cid) = store := by
  induction store with
  | nil => rfl
  | cons d rest ih =>
      simp [hasId, List.any_cons] at h
      simp [List.filter_cons, h.1, ih (by simp [hasId]; exact h.2)]

theorem delete_one_found (store : List Doc) (cid : String)
    (hnodup : (idsOf store).Nodup) (h : hasId store cid = true) :
    delete_one store cid = (1, store.filter (fun d => ! matchesId d cid)) := by
  induction store with
  | nil => simp [hasId] at h
  | cons e rest ih =>
      by_cases he : matchesId e cid = true
      · have hlook := (matchesId_iff e cid).mp he
        have hids : idsOf (e :: rest) = cid :: idsOf rest := by
          rw [idsOf_cons, hlook]
          rfl
        rw [hids] at hnodup
        have hrest : hasId rest cid = false := by
          by_contra hc
          have : hasId rest cid = true := by
            cases hb : hasId rest cid
            · exact absurd hb hc
            · rfl
          exact (List.nodup_cons.mp hnodup).1 (hasId_mem_idsOf rest cid this)
        simp [delete_one, he, List.filter_cons, filter_eq_self_of_no_match rest cid hrest]
      · have hrest : hasId rest cid = true := by
          simp [hasId, List.any_cons] at h
          rcases h with h1 | h2
          · exact absurd h1 he
          · simp [hasId]
            exact h2
        have htail : (idsOf rest).Nodup := by
          rw [idsOf_cons] at hnodup
          cases hl : List.lookup "id" e with
          | none => rw [hl] at hnodup; simpa using hnodup
          | some v =>
              rw [hl] at hnodup
              cases v with
              | null => simpa using hnodup
              | str s => exact (List.nodup_cons.mp (by simpa using hnodup)).2
        simp [delete_one, he, List.filter_cons, ih htail hrest]

theorem mem_delete_one (store : List Doc) (cid : String) (d : Doc)
    (h : d ∈ store) : d ∈ (delete_one store cid).2 ∨ matchesId d cid = true := by
  induction store with
  | nil => cases h
  | cons e rest ih =>
      by_cases he : matchesId e cid = true
      · rcases List.mem_cons.mp h with rfl | hm
        · right; exact he
        · left
          simp [delete_one, he]
          exact hm
      · rcases List.mem_cons.mp h with rfl | hm
        · left
          simp [delete_one, he]
        · rcases ih hm with hin | hmatch
          · left
            simp [delete_one, he]
            right
            exact hin
          · right; exact hmatch

theorem idsOf_append_created (store : List Doc) (c : CheatCreate) (gid now : String) :
    idsOf (store ++ [mkCheatDoc c gid now]) = idsOf store ++ [gid] := by
  simp [idsOf, List.filterMap_append]
  rfl

theorem idsOf_foldCreates (reqs : List (CheatCreate × String × String))
    (store : List Doc) :
    idsOf (foldCreates reqs store) = idsOf store ++ reqs.map (fun r => r.2.1) := by
  induction reqs generalizing store with
  | nil => simp [foldCreates]
  | cons r rest ih =>
      obtain ⟨c, gid, now⟩ := r
      rw [foldCreates, create_cheat_admin, ih, idsOf_append_created]
      simp

/-- C1: POST /api/auth succeeds (returning a capability token) iff the
presented credential string equals the fixed shared-secret constant
`ADMIN_CODE`; every other string is rejected with the 401 unauthorized
error. -/
theorem auth_gate_correct (code : String) :
    ((∃ r, authenticate code = .ok r) ↔ code = ADMIN_CODE)
    ∧ (code = ADMIN_CODE → authenticate code = .ok ⟨true, ADMIN_CODE⟩)
    ∧ (code ≠ ADMIN_CODE → authenticate code = .error unauthorizedErr) := by
  by_cases h : code = ADMIN_CODE <;>
    simp [authenticate, verify_admin_code, h]

theorem auth_gate_correct_witness :
    authenticate "201016" = .ok ⟨true, ADMIN_CODE⟩
    ∧ authenticate "000000" = .error unauthorizedErr :=
  ⟨(auth_gate_correct "201016").2.1 rfl,
   (auth_gate_correct "000000").2.2 (by decide)⟩

/-- C9: the token returned by a successful POST /api/auth is the shared
secret itself, and presenting that token as the bearer credential makes
the write-endpoint auth check (`get_current_user`) succeed. -/
theorem auth_round_trip (code : String) (r : AuthResponse)
    (h : authenticate code = .ok r) :
    r.token = ADMIN_CODE ∧ get_current_user r.token = .ok true := by
  by_cases hv : verify_admin_code code = true
  · simp [authenticate, hv] at h
    subst h
    exact ⟨rfl, rfl⟩
  · simp [authenticate, hv] at h

theorem auth_round_trip_witness :
    (⟨true, "201016"⟩ : AuthResponse).token = ADMIN_CODE
    ∧ get_current_user (⟨true, "201016"⟩ : AuthResponse).token = .ok true :=
  auth_round_trip "201016" ⟨true, "201016"⟩ rfl

/-- C4: a Create, Delete, or Upload request whose bearer credential is
not the shared secret is rejected with the 401 unauthorized error, and
both the document store and the upload directory are left unchanged. -/
theorem unauthorized_requests_frame (cred : String) (h : cred ≠ ADMIN_CODE)
    (c : CheatCreate) (gid now cid : String) (f : UploadFile)
    (store : List Doc) (uploads : List (String × List Nat)) :
    create_cheat cred c gid now store = (.error unauthorizedErr, store)
    ∧ delete_cheat cred cid store = (.error unauthorizedErr, store)
    ∧ upload_thumbnail cred f gid uploads = (.error unauthorizedErr, uploads) := by
  refine ⟨?_, ?_, ?_⟩ <;>
    simp [create_cheat, delete_cheat, upload_thumbnail, get_current_user, h]

theorem unauthorized_requests_frame_witness :
    create_cheat "000000" ⟨"n", "d", "l", none, none⟩ "g" "t" []
      = (.error unauthorizedErr, [])
    ∧ delete_cheat "000000" "g" [] = (.error unauthorizedErr, [])
    ∧ upload_thumbnail "000000" ⟨"a.png", "image/png", [1]⟩ "u" []
      = (.error unauthorizedErr, []) :=
  unauthorized_requests_frame "000000" (by decide)
    ⟨"n", "d", "l", none, none⟩ "g" "t" "g" ⟨"a.png", "image/png", [1]⟩ [] []

/-- C5: an authorized Upload whose declared media type does not start
with "image/" is rejected with the 400 invalid-file-type error and
nothing is written to the upload directory. -/
theorem upload_rejects_non_image (f : UploadFile) (gid : String)
    (uploads : List (String × List Nat))
    (h : startswith f.content_type "image/" = false) :
    upload_thumbnail ADMIN_CODE f gid uploads = (.error invalidFileErr, uploads) := by
  simp [upload_thumbnail, get_current_user, h]

theorem upload_rejects_non_image_witness :
    upload_thumbnail ADMIN_CODE ⟨"a.txt", "text/plain", [1, 2]⟩ "u" []
      = (.error invalidFileErr, []) :=
  upload_rejects_non_image ⟨"a.txt", "text/plain", [1, 2]⟩ "u" [] (by decide)

/-- C6: an authorized Upload declared as an image stores the file under
the name `<generated id>.<original extension>`, writes the full byte
stream there (appended to the upload directory), and returns the
relative URL path `/api/uploads/<that name>`. -/
theorem upload_image_stores_file (f : UploadFile) (gid : String)
    (uploads : List (String × List Nat))
    (h : startswith f.content_type "image/" = true) :
    upload_thumbnail ADMIN_CODE f gid uploads =
      (.ok ("/api/uploads/" ++ (gid ++ "." ++ file_ext f.filename)),
       uploads ++ [(gid ++ "." ++ file_ext f.filename, f.content)]) := by
  simp [upload_thumbnail, get_current_user, h]

theorem upload_image_stores_file_witness :
    upload_thumbnail ADMIN_CODE ⟨"a.png", "image/png", [1, 2]⟩ "u" []
      = (.ok "/api/uploads/u.png", [("u.png", [1, 2])]) := by
  have h := upload_image_stores_file ⟨"a.png", "image/png", [1, 2]⟩ "u" [] (by decide)
  rw [h]
  rfl

/-- C2: an authorized Create returns exactly the record it persists
(appended to the store), with every submitted field intact plus the
assigned id and creation timestamp, and that record appears in the
result of a subsequent List. -/
theorem create_then_list (c : CheatCreate) (gid now : String) (store : List Doc)
    (l : List CheatResponse) (h : get_cheats store = .ok l) :
    create_cheat ADMIN_CODE c gid now store =
      (.ok (mkResp c gid now), store ++ [mkCheatDoc c gid now])
    ∧ docToResponse (mkCheatDoc c gid now) = .ok (mkResp c gid now)
    ∧ get_cheats (store ++ [mkCheatDoc c gid now]) = .ok (l ++ [mkResp c gid now])
    ∧ mkResp c gid now ∈ l ++ [mkResp c gid now]
    ∧ (mkResp c gid now).id = gid ∧ (mkResp c gid now).created_at = now
    ∧ (mkResp c gid now).name = c.name
    ∧ (mkResp c gid now).description = c.description
    ∧ (mkResp c gid now).link = c.link
    ∧ (mkResp c gid now).youtube_url = c.youtube_url
    ∧ (mkResp c gid now).thumbnail_url = c.thumbnail_url := by
  refine ⟨create_cheat_admin c gid now store, docToResponse_mkCheatDoc c gid now,
    ?_, by simp, rfl, rfl, rfl, rfl, rfl, rfl, rfl⟩
  exact get_cheats_append store [mkCheatDoc c gid now] l [mkResp c gid now] h
    (by simp [get_cheats, docToResponse_mkCheatDoc, exBind_ok])

theorem create_then_list_witness :
    create_cheat ADMIN_CODE ⟨"n", "d", "l", none, none⟩ "g" "t" [] =
      (.ok (mkResp ⟨"n", "d", "l", none, none⟩ "g" "t"),
       [] ++ [mkCheatDoc ⟨"n", "d", "l", none, none⟩ "g" "t"])
    ∧ get_cheats ([] ++ [mkCheatDoc ⟨"n", "d", "l", none, none⟩ "g" "t"]) =
        .ok ([] ++ [mkResp ⟨"n", "d", "l", none, none⟩ "g" "t"]) :=
  ⟨(create_then_list ⟨"n", "d", "l", none, none⟩ "g" "t" [] [] rfl).1,
   (create_then_list ⟨"n", "d", "l", none, none⟩ "g" "t" [] [] rfl).2.2.1⟩

/-- C3: for an authorized Delete on a store with unique ids, a present
id removes exactly the matching record (every other record is kept,
in order), while an absent id yields the 404 not-found error and leaves
the collection unchanged. -/
theorem delete_cheat_correct (cid : String) (store : List Doc)
    (hnodup : (idsOf store).Nodup) :
    (hasId store cid = true →
      delete_cheat ADMIN_CODE cid store =
        (.ok "Cheat deleted successfully",
         store.filter (fun d => ! matchesId d cid)))
    ∧ (hasId store cid = false →
      delete_cheat ADMIN_CODE cid store = (.error notFoundErr, store)) := by
  constructor
  · intro h
    simp [delete_cheat, get_current_user, delete_one_found store cid hnodup h]
  · intro h
    simp [delete_cheat, get_current_user, delete_one_not_found store cid h]

theorem delete_cheat_correct_witness :
    delete_cheat ADMIN_CODE "g" [mkCheatDoc ⟨"n", "d", "l", none, none⟩ "g" "t"]
      = (.ok "Cheat deleted successfully", [])
    ∧ delete_cheat ADMIN_CODE "zz" [mkCheatDoc ⟨"n", "d", "l", none, none⟩ "g" "t"]
      = (.error notFoundErr, [mkCheatDoc ⟨"n", "d", "l", none, none⟩ "g" "t"]) := by
  constructor
  · have h := (delete_cheat_correct "g"
      [mkCheatDoc ⟨"n", "d", "l", none, none⟩ "g" "t"] (by decide)).1 (by decide)
    rw [h]
    rfl
  · exact (delete_cheat_correct "zz"
      [mkCheatDoc ⟨"n", "d", "l", none, none⟩ "g" "t"] (by decide)).2 (by decide)

theorem delete_cheat_snd (cred cid : String) (store : List Doc) :
    (delete_cheat cred cid store).2 = store
    ∨ (delete_cheat cred cid store).2 = (delete_one store cid).2 := by
  unfold delete_cheat
  cases get_current_user cred with
  | error e => exact Or.inl rfl
  | ok b =>
      right
      cases h : ((delete_one store cid).1 == 0) <;> simp [h]

/-- C7: no request mutates an existing stored record in place: after any
operation, every record previously in the store is still in the store
word for word, except that a Delete may remove the record whose id it
targets. -/
theorem records_never_mutated (op : Op) (s : ServerState) (d : Doc)
    (h : d ∈ s.store) :
    d ∈ (step op s).store
    ∨ ∃ cred cid, op = Op.delete cred cid ∧ matchesId d cid = true := by
  cases op with
  | health => exact Or.inl h
  | auth code => exact Or.inl h
  | list => exact Or.inl h
  | create cred c gid now =>
      left
      show d ∈ (create_cheat cred c gid now s.store).2
      cases hc : get_current_user cred with
      | error e => simpa [create_cheat, hc] using h
      | ok b =>
          simp [create_cheat, hc]
          exact Or.inl h
  | delete cred cid =>
      rcases mem_delete_one s.store cid d h with hin | hm
      · left
        show d ∈ (delete_cheat cred cid s.store).2
        rcases delete_cheat_snd cred cid s.store with he | he <;> rw [he]
        · exact h
        · exact hin
      · rcases delete_cheat_snd cred cid s.store with he | he
        · left
          show d ∈ (delete_cheat cred cid s.store).2
          rw [he]
          exact h
        · exact Or.inr ⟨cred, cid, rfl, hm⟩
  | upload cred f gid => exact Or.inl h

theorem records_never_mutated_witness :
    mkCheatDoc ⟨"n", "d", "l", none, none⟩ "g" "t" ∈
      (step Op.list ⟨[mkCheatDoc ⟨"n", "d", "l", none, none⟩ "g" "t"], []⟩).store
    ∨ ∃ cred cid, Op.list = Op.delete cred cid
        ∧ matchesId (mkCheatDoc ⟨"n", "d", "l", none, none⟩ "g" "t") cid = true :=
  records_never_mutated Op.list
    ⟨[mkCheatDoc ⟨"n", "d", "l", none, none⟩ "g" "t"], []⟩
    (mkCheatDoc ⟨"n", "d", "l", none, none⟩ "g" "t") (List.mem_singleton.mpr rfl)

/-- C8: under the id-generation scheme (the generated ids, one per
create, are pairwise distinct and distinct from every id already in the
store), any sequence of creates - in particular any interleaving of
concurrent creates, each being a single insert - assigns each record a
fresh id and leaves the store's ids pairwise distinct. -/
theorem create_ids_unique (reqs : List (CheatCreate × String × String))
    (store : List Doc)
    (h : (idsOf store ++ reqs.map (fun r => r.2.1)).Nodup) :
    idsOf (foldCreates reqs store) = idsOf store ++ reqs.map (fun r => r.2.1)
    ∧ (idsOf (foldCreates reqs store)).Nodup
    ∧ ∀ r ∈ reqs, r.2.1 ∉ idsOf store := by
  refine ⟨idsOf_foldCreates reqs store, ?_, ?_⟩
  · rw [idsOf_foldCreates]
    exact h
  · intro r hr hmem
    rcases List.nodup_append.mp h with ⟨-, -, hdisj⟩
    exact hdisj hmem (List.mem_map_of_mem _ hr)

theorem create_ids_unique_witness :
    (idsOf (foldCreates
      [(⟨"n", "d", "l", none, none⟩, "g1", "t1"),
       (⟨"m", "e", "k", none, none⟩, "g2", "t2")] [])).Nodup :=
  (create_ids_unique
    [(⟨"n", "d", "l", none, none⟩, "g1", "t1"),
     (⟨"m", "e", "k", none, none⟩, "g2", "t2")] [] (by decide)).2.1

/-- C10: every record persisted by Create carries all seven fields in
order, the optional ones present as explicit nulls when not submitted;
hence List never hits a missing key on a store populated solely by
Create. -/
theorem created_store_is_safe (store : List Doc)
    (h : ∀ d ∈ store, ∃ c gid now, d = mkCheatDoc c gid now) :
    (∃ l, get_cheats store = .ok l)
    ∧ ∀ (c : CheatCreate) (gid now : String),
        (mkCheatDoc c gid now).map Prod.fst =
          ["id", "name", "description", "link",
           "youtube_url", "thumbnail_url", "created_at"]
        ∧ List.lookup "youtube_url" (mkCheatDoc c gid now) = some (optVal c.youtube_url)
        ∧ List.lookup "thumbnail_url" (mkCheatDoc c gid now) = some (optVal c.thumbnail_url)
        ∧ optVal none = BVal.null := by
  constructor
  · induction store with
    | nil => exact ⟨[], rfl⟩
    | cons d rest ih =>
        obtain ⟨c, gid, now, rfl⟩ := h _ (List.mem_cons_self _ rest)
        obtain ⟨l, hl⟩ := ih (fun e he => h e (List.mem_cons_of_mem _ he))
        exact ⟨mkResp c gid now :: l,
          by simp [get_cheats, docToResponse_mkCheatDoc, exBind_ok, hl]⟩
  · intro c gid now
    exact ⟨rfl, rfl, rfl, rfl⟩

theorem created_store_is_safe_witness :
    ∃ l, get_cheats [mkCheatDoc ⟨"n", "d", "l", none, none⟩ "g" "t"] = .ok l :=
  (created_store_is_safe [mkCheatDoc ⟨"n", "d", "l", none, none⟩ "g" "t"]
    (by
      intro d hd
      rw [List.mem_singleton] at hd
      exact ⟨⟨"n", "d", "l", none, none⟩, "g", "t", hd⟩)).1
